import Mathlib

/-!
Verification of the `ak-bot-enterprise` booking assistant.

This file shallowly embeds the parts of the JavaScript source that the
specification's testable properties talk about, and proves (or refutes)
those properties against the embedding:

* the active-profile predicate of `main` (part_002 lines 300-303, `bot.js`
  lines 172-175),
* the slot-selection algorithms (`bot.js` lines 273-287 and part_004's
  `findAvailableSlots`),
* the `/code` command and the global SMS-code resolver (`bot.js`
  lines 416-442 and 146-151),
* `ConfigManager.getConfigs` with TTL caching and stale-cache fallback
  (part_004 lines 53-75, part_006 lines 67-88),
* `RetryManager.executeWithRetry` (part_004 lines 128-146),
* `HealthMonitor.recordRun` (part_004 lines 197-203),
* `SMSManager.waitForSMS` (part_004 lines 104-121),
* the priority sort of `main` (part_002 line 313, part_004 line 367).

JavaScript numbers appearing here are small integers (priorities, counters,
millisecond durations), embedded as `Nat`/`Int`; runtimes fed to the running
mean are embedded as `ℚ`, on which the source's arithmetic is exact.
-/

/-- A JavaScript value as it occurs in a configuration row fetched from the
spreadsheet feed: a string, a boolean, a number, or `undefined` (the result
of reading an absent property). Numbers are embedded as integers, which
covers every value the claims exercise. -/
inductive JsVal where
  | str (s : String)
  | bool (b : Bool)
  | num (n : Int)
  | undef
deriving DecidableEq, Repr

/-- JavaScript truthiness of an embedded value: `""`, `false`, `0` and
`undefined` are falsy, everything else is truthy. -/
def JsVal.truthy : JsVal → Bool
  | .str s => !(s == "")
  | .bool b => b
  | .num n => !(n == 0)
  | .undef => false

/-- JavaScript `toString()` on an embedded value (`(5).toString() = "5"`,
`false.toString() = "false"`; `undefined` has no `toString` method, and no
code path in this file applies `toStr` to `undef` behind a truthiness
guard). -/
def JsVal.toStr : JsVal → String
  | .str s => s
  | .bool b => if b then "true" else "false"
  | .num n => toString n
  | .undef => "undefined"

/-- JavaScript numeric coercion of an embedded value, defined on the values
the source coerces: integers stay themselves, numeric strings parse, `true`
is 1. (`undefined` coerces to NaN in JavaScript; the source only coerces
values it has already checked to be truthy, and this file never applies
`toNumber` to `undef`.) -/
def JsVal.toNumber : JsVal → Int
  | .num n => n
  | .str s => (s.toInt?).getD 0
  | .bool b => if b then 1 else 0
  | .undef => 0

/-- JavaScript `toLowerCase()` on the strings this system handles,
character by character (the source only lowercases ASCII flag values such
as `"Yes"`). -/
def jsToLower (s : String) : String := ⟨s.data.map Char.toLower⟩

/-- A configuration row (one `BookingProfile`) as a field-name/value map,
in spreadsheet column order. -/
def Row : Type := List (String × JsVal)

instance : DecidableEq Row := inferInstanceAs (DecidableEq (List (String × JsVal)))

/-- JavaScript property read `row.name`: the value of the first binding of
`name`, or `undefined` when the row has no such field. -/
def getField (row : Row) (name : String) : JsVal :=
  match row.find? (fun p => p.1 == name) with
  | some p => p.2
  | none => JsVal.undef

/-- The active-profile predicate used by every variant
(part_002 lines 300-303, part_001 lines 153-156, `bot.js` lines 172-175):
`config.active && config.active.toString().toLowerCase() === 'yes'`.
A row passes the filter exactly when this expression is truthy. -/
def activeFilter (row : Row) : Bool :=
  (getField row "active").truthy &&
    (jsToLower (getField row "active").toStr == "yes")

/-- Modelled from the spec's words (§4.3 / claim C1), for comparison with
`activeFilter`: the predicate accepts a row whose `active` field,
stringified and lowercased, equals `"yes"`; when the `active` field is
entirely absent, a fallback scans all of the row's field values for a
case-insensitive `"yes"` and treats any match as active. No such fallback
exists anywhere in the source. -/
def activeFilterClaimed (row : Row) : Bool :=
  if (row.find? (fun p => p.1 == "active")).isSome then
    jsToLower (getField row "active").toStr == "yes"
  else
    row.any (fun p => jsToLower p.2.toStr == "yes")

/-- A row whose only field is `status: "yes"`, with no `active` field. -/
def statusYesRow : Row := [("status", JsVal.str "yes")]

/-- C1, counterexample. The claimed fallback (scan all field values for a
case-insensitive "yes" when `active` is absent) is not implemented: on the
row `{status:"yes"}` the claimed predicate answers active, but the source's
predicate — whose filter expression `config.active && ...` is falsy the
moment `config.active` is `undefined` — excludes the row. -/
theorem active_fallback_counterexample :
    activeFilterClaimed statusYesRow = true ∧ activeFilter statusYesRow = false := by
  decide

/-- C1, amended. The active predicate accepts a row exactly when its
`active` field is truthy and its stringification, lowercased, equals
`"yes"`; `{active:"Yes"}` and `{active:"YES"}` pass, `{active:"no"}` and
`{active:false}` are excluded, and every row with no `active` field at all
is excluded — there is no fallback scan of the other field values. -/
theorem active_predicate_amended :
    (∀ row : Row, getField row "active" = JsVal.undef → activeFilter row = false) ∧
    activeFilter [("active", JsVal.str "Yes")] = true ∧
    activeFilter [("active", JsVal.str "YES")] = true ∧
    activeFilter [("active", JsVal.str "no")] = false ∧
    activeFilter [("active", JsVal.bool false)] = false ∧
    activeFilter statusYesRow = false := by
  refine ⟨?_, by decide, by decide, by decide, by decide, by decide⟩
  intro row h
  simp [activeFilter, h, JsVal.truthy]

/-- C1, witness for the amended theorem: a row carrying only a `name` field
reads `undefined` at `active` and is excluded. -/
theorem active_predicate_amended_witness :
    getField [("name", JsVal.str "Kashif")] "active" = JsVal.undef ∧
    activeFilter [("name", JsVal.str "Kashif")] = false :=
  ⟨by decide, active_predicate_amended.1 [("name", JsVal.str "Kashif")] (by decide)⟩

/-- Stable sort by an integer key, the behavior of JavaScript
`Array.prototype.sort` with the numeric comparator `(a, b) => key(a) - key(b)`
(stable per the ECMAScript specification): insert the earlier element before
the first later element with a key not smaller than its own. -/
def insertByKey (key : α → Int) (x : α) : List α → List α
  | [] => [x]
  | y :: ys => if key y < key x then y :: insertByKey key x ys else x :: y :: ys

/-- Stable sort by an integer key (see `insertByKey`). -/
def sortByKey (key : α → Int) : List α → List α
  | [] => []
  | x :: xs => insertByKey key x (sortByKey key xs)

theorem mem_insertByKey (key : α → Int) (x : α) (l : List α) (z : α) :
    z ∈ insertByKey key x l ↔ z = x ∨ z ∈ l := by
  induction l with
  | nil => simp [insertByKey]
  | cons y ys ih =>
    by_cases h : key y < key x
    · simp only [insertByKey, if_pos h, List.mem_cons, ih]
      tauto
    · simp only [insertByKey, if_neg h, List.mem_cons]

theorem pairwise_insertByKey (key : α → Int) (x : α) (l : List α)
    (h : l.Pairwise (fun a b => key a ≤ key b)) :
    (insertByKey key x l).Pairwise (fun a b => key a ≤ key b) := by
  induction l with
  | nil => simp [insertByKey]
  | cons y ys ih =>
    rcases List.pairwise_cons.mp h with ⟨hy, hys⟩
    by_cases hk : key y < key x
    · simp only [insertByKey, if_pos hk]
      refine List.pairwise_cons.mpr ⟨?_, ih hys⟩
      intro z hz
      rcases (mem_insertByKey key x ys z).mp hz with rfl | hz
      · exact le_of_lt hk
      · exact hy z hz
    · simp only [insertByKey, if_neg hk]
      refine List.pairwise_cons.mpr ⟨?_, h⟩
      intro z hz
      rcases List.mem_cons.mp hz with rfl | hz
      · exact le_of_not_lt hk
      · exact le_trans (le_of_not_lt hk) (hy z hz)

/-- The output of the stable sort is non-decreasing in the key. -/
theorem sortByKey_sorted (key : α → Int) (l : List α) :
    (sortByKey key l).Pairwise (fun a b => key a ≤ key b) := by
  induction l with
  | nil => simp [sortByKey]
  | cons x xs ih => exact pairwise_insertByKey key x (sortByKey key xs) ih

theorem filter_insertByKey (key : α → Int) (x : α) (l : List α) (p : Int) :
    (insertByKey key x l).filter (fun a => key a == p) =
      if key x == p then x :: l.filter (fun a => key a == p)
      else l.filter (fun a => key a == p) := by
  induction l with
  | nil => by_cases h : key x == p <;> simp [insertByKey, List.filter, h]
  | cons y ys ih =>
    by_cases hk : key y < key x
    · have hxp : ¬(key y == p ∧ key x == p) := by
        rintro ⟨h1, h2⟩
        rw [beq_iff_eq] at h1 h2
        omega
      by_cases hy : key y == p <;>
        by_cases hx : key x == p <;>
        simp_all [insertByKey, hk, List.filter_cons, ih]
    · by_cases hy : key y == p <;>
        by_cases hx : key x == p <;>
        simp [insertByKey, hk, List.filter_cons, hy, hx]

/-- Stability: for every key value, the elements carrying that key appear in
the sorted output in exactly their original relative order. -/
theorem sortByKey_stable (key : α → Int) (l : List α) (p : Int) :
    (sortByKey key l).filter (fun a => key a == p) =
      l.filter (fun a => key a == p) := by
  induction l with
  | nil => rfl
  | cons x xs ih =>
    rw [sortByKey, filter_insertByKey, ih, List.filter_cons]

/-- JavaScript `String.prototype.split` with a single-character separator,
over the character list of the string: `"a/b".split('/') = ["a","b"]`,
with empty fields kept. -/
def splitFields (sep : Char) : List Char → List (List Char)
  | [] => [[]]
  | c :: cs =>
    let rest := splitFields sep cs
    if c = sep then [] :: rest
    else
      match rest with
      | [] => [[c]]
      | f :: fs => (c :: f) :: fs

/-- The value of a non-empty all-digit character group, or `none`. -/
def digitGroup? (cs : List Char) : Option Nat :=
  if cs ≠ [] ∧ cs.all Char.isDigit then
    some (cs.foldl (fun a c => a * 10 + (c.toNat - 48)) 0)
  else none

/-- Splits a calendar-cell text of the exact shape `"a/b/yyyy"` (digits
separated by two slashes, the shape the portal renders and the shape the
source's pattern `\d{1,2}\/\d{1,2}\/\d{4}` looks for) into its three numeric
components in written order. Texts of any other shape yield `none`. -/
def parseSlashDate (s : String) : Option (Nat × Nat × Nat) :=
  match (splitFields '/' s.data).map digitGroup? with
  | [some a, some b, some y] => some (a, b, y)
  | _ => none

/-- The sort key of `bot.js` lines 276-280:
`new Date(text.split('/').reverse().join('-'))`, i.e. the text `"d/m/yyyy"`
is rebuilt as the ISO string `"yyyy-m-d"` and parsed with month `m` and day
`d`. The millisecond timestamps the source compares are ordered exactly like
this year/month/day encoding, which stands in for them. -/
def botjsDateKey (s : String) : Int :=
  match parseSlashDate s with
  | some (a, b, y) => (y : Int) * 10000 + (b : Int) * 100 + (a : Int)
  | none => 0

/-- The sort key of part_004's `findAvailableSlots` (lines 211-228):
`new Date(td.textContent.trim())` applied directly to the cell text
`"a/b/yyyy"`. The JavaScript legacy date parser reads that shape as
month `a`, day `b` (US order), so the timestamps compare like this
year/**first-component**/second-component encoding (for texts whose first
component is a valid month, which all inputs used here are). -/
def naiveDateKey (s : String) : Int :=
  match parseSlashDate s with
  | some (a, b, y) => (y : Int) * 10000 + (a : Int) * 100 + (b : Int)
  | none => 0

/-- Slot selection of `bot.js` lines 273-287: keep the cell texts matching
the date pattern, sort them by `new Date` of the reversed-and-rejoined text
(a correct day/month/year reading), and click the first; the selected text
is returned (`none` when no candidate remains). -/
def selectEarliestSlot_botjs (texts : List String) : Option String :=
  (sortByKey botjsDateKey (texts.filter (fun t => (parseSlashDate t).isSome))).head?

/-- One scan of part_004's `findAvailableSlots` (strategy 1, lines 211-213,
and the selection at lines 230-241): keep the cell texts matching the date
pattern, sort by `new Date` applied directly to the text (month-first
reading), and return the first as the "earliest" slot (`none` when the
strategy yields no candidate and the next strategy or retry runs). -/
def findAvailableSlots_part004 (texts : List String) : Option String :=
  (sortByKey naiveDateKey (texts.filter (fun t => (parseSlashDate t).isSome))).head?

/-- C2: part_004's `findAvailableSlots` does not return the chronologically
earliest date. On the candidate cells `["02/01/2025", "01/02/2025"]`
(2 January and 1 February in the portal's day/month/year convention) it
selects `"01/02/2025"`, because `new Date("02/01/2025")` reads the text
month-first; the sibling variant in `bot.js`, which reverses the components
before parsing, selects the chronologically earliest `"02/01/2025"`. On the
spec's example `["05/10/2025","01/10/2025","12/10/2025"]` the two variants
happen to agree on `"01/10/2025"`, masking the bug. -/
theorem slot_selection_month_first_bug :
    findAvailableSlots_part004 ["02/01/2025", "01/02/2025"] = some "01/02/2025" ∧
    selectEarliestSlot_botjs ["02/01/2025", "01/02/2025"] = some "02/01/2025" ∧
    botjsDateKey "02/01/2025" < botjsDateKey "01/02/2025" ∧
    findAvailableSlots_part004 ["05/10/2025", "01/10/2025", "12/10/2025"] =
      some "01/10/2025" ∧
    selectEarliestSlot_botjs ["05/10/2025", "01/10/2025", "12/10/2025"] =
      some "01/10/2025" := by
  decide

/-- The three reply shapes of the `/code` handler in `bot.js` lines 416-442:
the automated-delivery acknowledgement ("received and will be entered
automatically"), the manual-entry instructions quoting the code verbatim,
and the format-error reply. -/
inductive CodeReply where
  | automated (code : List Char)
  | manualInstructions (code : List Char)
  | invalidFormat
deriving DecidableEq, Repr

/-- The process-global OTP handoff state of `bot.js`: whether
`global.smsCodeResolver` holds a resolver function, and the value the
current pending promise has been resolved with (a promise, once settled,
ignores later resolutions). -/
structure OtpState where
  resolverSet : Bool
  delivered : Option (List Char)
deriving DecidableEq, Repr

/-- The state before any booking attempt: `global.smsCodeResolver` is unset. -/
def initialOtpState : OtpState := ⟨false, none⟩

/-- `SMSManager.waitForSMS` of `bot.js` lines 146-151: create a fresh
promise and store its resolver in the global slot. -/
def startSmsWait (st : OtpState) : OtpState :=
  match st with
  | _ => ⟨true, none⟩

/-- The `/code` command handler of `bot.js` lines 416-442, on the message
text as a character list: split on spaces, take the second token, and when
it is exactly six digits either invoke the global resolver (when set) and
acknowledge automated delivery, or print manual-entry instructions;
otherwise reply with the format error. The resolver slot is left as it was
in every branch. -/
def handleCodeCommand (st : OtpState) (message : List Char) : OtpState × CodeReply :=
  match splitFields ' ' message with
  | _ :: code :: _ =>
    if code.length = 6 ∧ code.all Char.isDigit then
      if st.resolverSet then
        (⟨st.resolverSet, st.delivered.orElse (fun _ => some code)⟩,
          CodeReply.automated code)
      else (st, CodeReply.manualInstructions code)
    else (st, CodeReply.invalidFormat)
  | _ => (st, CodeReply.invalidFormat)

/-- C3, counterexample. Start a booking attempt (which installs the global
resolver), deliver `/code 123456`, then issue `/code 654321` after the
continuation has been consumed: the handler still takes the
automated-delivery branch — `global.smsCodeResolver` is never cleared — and
does not reply with manual-entry instructions, contradicting the claim. The
pending promise keeps the first code, so delivery itself stays exactly-once. -/
theorem code_after_consumption_counterexample :
    (handleCodeCommand (startSmsWait initialOtpState) ("/code 123456".data)).2 =
      CodeReply.automated ("123456".data) ∧
    (handleCodeCommand (startSmsWait initialOtpState) ("/code 123456".data)).1.delivered =
      some ("123456".data) ∧
    (handleCodeCommand
        (handleCodeCommand (startSmsWait initialOtpState) ("/code 123456".data)).1
        ("/code 654321".data)).2 = CodeReply.automated ("654321".data) ∧
    (handleCodeCommand
        (handleCodeCommand (startSmsWait initialOtpState) ("/code 123456".data)).1
        ("/code 654321".data)).2 ≠ CodeReply.manualInstructions ("654321".data) ∧
    (handleCodeCommand
        (handleCodeCommand (startSmsWait initialOtpState) ("/code 123456".data)).1
        ("/code 654321".data)).1.delivered = some ("123456".data) := by
  decide

theorem splitFields_of_no_sep (sep : Char) (cs : List Char) (h : sep ∉ cs) :
    splitFields sep cs = [cs] := by
  induction cs with
  | nil => rfl
  | cons c cs ih =>
    have hc : ¬(c = sep) := fun hcs => h (hcs ▸ List.mem_cons_self c cs)
    have hrest := ih (fun hm => h (List.mem_cons_of_mem c hm))
    simp [splitFields, hc, hrest]

theorem splitFields_code_message (code : List Char) :
    splitFields ' ' ("/code ".data ++ code) = "/code".data :: splitFields ' ' code := by
  rfl

theorem handleCode_split (st : OtpState) (code : List Char)
    (h : splitFields ' ' ("/code ".data ++ code) = ["/code".data, code]) :
    handleCodeCommand st ("/code ".data ++ code) =
      if code.length = 6 ∧ code.all Char.isDigit then
        if st.resolverSet then
          (⟨st.resolverSet, st.delivered.orElse (fun _ => some code)⟩,
            CodeReply.automated code)
        else (st, CodeReply.manualInstructions code)
      else (st, CodeReply.invalidFormat) := by
  rw [handleCodeCommand, h]

/-- C3, amended. A valid six-digit `/code` issued while the resolver slot is
unset (no booking attempt ever registered a continuation) replies with
manual-entry instructions carrying the code verbatim; once a continuation is
registered, every valid `/code` takes the automated-delivery branch — the
slot is never cleared — and the pending promise receives only the first such
code (delivery is exactly-once; later resolutions are ignored by the settled
promise). -/
theorem code_command_amended (st : OtpState) (code : List Char)
    (hlen : code.length = 6) (hdig : code.all Char.isDigit) :
    (st.resolverSet = false →
      handleCodeCommand st ("/code ".data ++ code) =
        (st, CodeReply.manualInstructions code)) ∧
    (st.delivered = none → st.resolverSet = true →
      handleCodeCommand st ("/code ".data ++ code) =
        (⟨true, some code⟩, CodeReply.automated code)) ∧
    (∀ c, st.delivered = some c → st.resolverSet = true →
      handleCodeCommand st ("/code ".data ++ code) =
        (⟨true, some c⟩, CodeReply.automated code)) := by
  have hnosp : (' ' : Char) ∉ code := by
    intro hm
    have h1 : (' ' : Char).isDigit = true := List.all_eq_true.mp hdig ' ' hm
    exact absurd h1 (by decide)
  have hsplit : splitFields ' ' ("/code ".data ++ code) = ["/code".data, code] := by
    rw [splitFields_code_message, splitFields_of_no_sep ' ' code hnosp]
  have hstep := fun st => handleCode_split st code hsplit
  refine ⟨?_, ?_, ?_⟩
  · intro hres
    rw [hstep st, if_pos ⟨hlen, hdig⟩, hres]
    simp
  · intro hdel hres
    rw [hstep st, if_pos ⟨hlen, hdig⟩, hres]
    simp [hdel, Option.orElse]
  · intro c hdel hres
    rw [hstep st, if_pos ⟨hlen, hdig⟩, hres]
    simp [hdel, Option.orElse]

/-- C3, witness for the amended theorem: with no continuation registered,
`/code 123456` yields the manual-entry instructions quoting `123456`. -/
theorem code_command_amended_witness :
    handleCodeCommand initialOtpState ("/code ".data ++ "123456".data) =
      (initialOtpState, CodeReply.manualInstructions ("123456".data)) :=
  (code_command_amended initialOtpState ("123456".data) (by decide) (by decide)).1 rfl

/-- The cached-configuration state of `ConfigManager` (part_004 lines 53-56,
part_006 lines 67-70): `cache` is `null` until a fetch succeeds,
`cacheExpiry` starts at 0, and `cacheTtl` defaults to 5 minutes. Times are
milliseconds since the epoch. -/
structure CMState where
  cache : Option (List Row)
  cacheExpiry : Nat
  cacheTtl : Nat
deriving DecidableEq

/-- The constructor default `cacheTtl = 5 * 60 * 1000` milliseconds. -/
def defaultCacheTtl : Nat := 5 * 60 * 1000

/-- A freshly constructed `ConfigManager`. -/
def initialCMState : CMState := ⟨none, 0, defaultCacheTtl⟩

/-- The outcome the environment hands a single HTTP fetch of the sheet:
a 2xx response whose body parsed as a configuration array, or any failure
(non-2xx status, timeout, malformed body) carrying its error message. -/
inductive FetchOutcome where
  | ok (configs : List Row)
  | fail (errMsg : String)

/-- Everything one `getConfigs()` call produces: the successor state, the
returned (or thrown) value, whether an HTTP request was issued, and whether
the "Using expired cache" warning was logged. -/
structure GetConfigsResult where
  state : CMState
  result : Except String (List Row)
  fetched : Bool
  warnedStale : Bool

/-- `ConfigManager.getConfigs` (part_004 lines 57-73, part_006 lines 71-87)
at time `now`, with `fetch` the outcome the network would produce: return
the cache untouched while it is non-null and unexpired (`now <
this.cacheExpiry`); otherwise issue the fetch — on success cache the body
with expiry `now + cacheTtl` and return it, on failure return the stale
cache with a warning when one exists, else rethrow. -/
def getConfigs (st : CMState) (now : Nat) (fetch : FetchOutcome) : GetConfigsResult :=
  let fetchStep : GetConfigsResult :=
    match fetch with
    | .ok configs =>
      ⟨⟨some configs, now + st.cacheTtl, st.cacheTtl⟩, .ok configs, true, false⟩
    | .fail e =>
      match st.cache with
      | some c => ⟨st, .ok c, true, true⟩
      | none => ⟨st, .error e, true, false⟩
  match st.cache with
  | some c => if now < st.cacheExpiry then ⟨st, .ok c, false, false⟩ else fetchStep
  | none => fetchStep

/-- C4. After a `getConfigs()` call at time `T` that actually fetched and
succeeded (so the cache holds `configs` with expiry `T + 300000`, the
default TTL), every call strictly before `T + 300000` returns the identical
cached array without issuing an HTTP request and without changing the
state, and every call at or after `T + 300000` issues a new HTTP request. -/
theorem cache_ttl (st : CMState) (T : Nat) (configs : List Row) :
    (getConfigs st T (.ok configs)).fetched = true →
    (getConfigs st T (.ok configs)).state =
      ⟨some configs, T + 300000, 300000⟩ →
    (∀ t, ∀ f : FetchOutcome, t < T + 300000 →
      getConfigs ⟨some configs, T + 300000, 300000⟩ t f =
        ⟨⟨some configs, T + 300000, 300000⟩, .ok configs, false, false⟩) ∧
    (∀ t, ∀ f : FetchOutcome, T + 300000 ≤ t →
      (getConfigs ⟨some configs, T + 300000, 300000⟩ t f).fetched = true) := by
  intro _ _
  constructor
  · intro t f ht
    simp [getConfigs, ht]
  · intro t f ht
    have hlt : ¬(t < T + 300000) := not_lt.mpr ht
    cases f with
    | ok cfgs => simp [getConfigs, hlt]
    | fail e => cases hc : (some configs : Option (List Row)) <;> simp [getConfigs, hlt]

/-- C4, witness: a fetch succeeding at time 1000 on a cold manager caches
until 301000; a read at 101000 is served from memory, a read at 301000
fetches again. -/
theorem cache_ttl_witness :
    (getConfigs ⟨some [statusYesRow], 301000, 300000⟩ 101000 (.fail "HTTP 500")) =
      ⟨⟨some [statusYesRow], 301000, 300000⟩, .ok [statusYesRow], false, false⟩ ∧
    (getConfigs ⟨some [statusYesRow], 301000, 300000⟩ 301000 (.ok [])).fetched = true := by
  have h := cache_ttl ⟨none, 0, 300000⟩ 1000 [statusYesRow] rfl rfl
  exact ⟨h.1 101000 (.fail "HTTP 500") (by decide), h.2 301000 (.ok []) (by decide)⟩

/-- C5. When the fetch at `now` fails and no unexpired cache short-circuits
the call: with a previous cache `c` (even expired) the call returns `c` and
logs the stale-cache warning; with no cache at all the failure propagates to
the caller as-is — no default or empty array is substituted. -/
theorem stale_cache_fallback (st : CMState) (now : Nat) (e : String)
    (hexp : st.cacheExpiry ≤ now) :
    (∀ c, st.cache = some c →
      getConfigs st now (.fail e) = ⟨st, .ok c, true, true⟩) ∧
    (st.cache = none →
      getConfigs st now (.fail e) = ⟨st, .error e, true, false⟩) := by
  have hlt : ¬(now < st.cacheExpiry) := not_lt.mpr hexp
  constructor
  · intro c hc
    simp [getConfigs, hc, hlt]
  · intro hc
    simp [getConfigs, hc]

/-- C5, witness: an expired cache of one row survives an HTTP 500 with the
warning, and a cold manager propagates the same failure. -/
theorem stale_cache_fallback_witness :
    getConfigs ⟨some [statusYesRow], 300000, 300000⟩ 600000 (.fail "HTTP 500") =
      ⟨⟨some [statusYesRow], 300000, 300000⟩, .ok [statusYesRow], true, true⟩ ∧
    getConfigs ⟨none, 0, 300000⟩ 600000 (.fail "HTTP 500") =
      ⟨⟨none, 0, 300000⟩, .error "HTTP 500", true, false⟩ :=
  ⟨(stale_cache_fallback ⟨some [statusYesRow], 300000, 300000⟩ 600000 "HTTP 500"
      (by decide)).1 [statusYesRow] rfl,
    (stale_cache_fallback ⟨none, 0, 300000⟩ 600000 "HTTP 500" (by decide)).2 rfl⟩

/-- Everything one `executeWithRetry` call produces: the returned (or
thrown) value, how many times the operation was invoked, and the waits (in
milliseconds) slept between attempts, in order. -/
structure RetryTrace (α : Type) where
  result : Except String α
  invocations : Nat
  delays : List Nat

/-- The loop body of `RetryManager.executeWithRetry` (part_004 lines
128-146) from attempt number `attempt` on, with `remaining` attempts left
(`remaining = maxRetries - attempt + 1` at every call): run the operation;
on success return its value; on failure, when further attempts remain, wait
`baseDelay * 2^(attempt-1)` and continue, and otherwise throw the single
aggregated failure naming `maxRetries` and the last error's message. The
`remaining = 0` base is reached only when `maxRetries = 0`, where the loop
body never runs (the source would crash reading `lastError.message`, here
rendered as the aggregated message with `"undefined"`). -/
def retryFrom (op : Nat → Except String α) (maxRetries baseDelay : Nat) :
    Nat → Nat → String → RetryTrace α
  | _, 0, lastErr =>
    ⟨.error ("Failed after " ++ toString maxRetries ++ " attempts: " ++ lastErr),
      0, []⟩
  | attempt, remaining + 1, _ =>
    match op attempt with
    | .ok v => ⟨.ok v, 1, []⟩
    | .error e =>
      if attempt < maxRetries then
        let d := baseDelay * 2 ^ (attempt - 1)
        let rest := retryFrom op maxRetries baseDelay (attempt + 1) remaining e
        ⟨rest.result, rest.invocations + 1, d :: rest.delays⟩
      else
        ⟨.error ("Failed after " ++ toString maxRetries ++ " attempts: " ++ e),
          1, []⟩

/-- `RetryManager.executeWithRetry(operation, maxRetries, baseDelay)`
(part_004 lines 128-146), with `op n` the outcome of the n-th invocation of
the operation (attempts are numbered from 1 as in the source). -/
def executeWithRetry (op : Nat → Except String α) (maxRetries baseDelay : Nat) :
    RetryTrace α :=
  retryFrom op maxRetries baseDelay 1 maxRetries "undefined"

/-- C6. Against an operation that fails on every invocation,
`executeWithRetry(op, 3, 1000)` invokes the operation exactly 3 times,
sleeps 1000 ms and then 2000 ms between the attempts (the exponential
`baseDelay * 2^(attempt-1)`), and throws the single aggregated failure
`"Failed after 3 attempts: "` followed by the third (last) error's message;
an operation that first succeeds on attempt `k` returns that result after
exactly `k` invocations. -/
theorem retry_backoff_exhaustion {α : Type} :
    (∀ (op : Nat → Except String α) (errs : Nat → String),
      (∀ n, op n = .error (errs n)) →
      executeWithRetry op 3 1000 =
        ⟨.error ("Failed after 3 attempts: " ++ errs 3), 3, [1000, 2000]⟩) ∧
    (∀ (op : Nat → Except String α) (v : α) (k : Nat), 1 ≤ k → k ≤ 3 →
      (∀ n, 1 ≤ n → n < k → ∃ e, op n = .error e) → op k = .ok v →
      (executeWithRetry op 3 1000).result = .ok v ∧
        (executeWithRetry op 3 1000).invocations = k) := by
  constructor
  · intro op errs h
    simp [executeWithRetry, retryFrom, h]
    rfl
  · intro op v k hk1 hk3 hfail hok
    interval_cases k
    · simp [executeWithRetry, retryFrom, hok]
    · obtain ⟨e1, he1⟩ := hfail 1 (by omega) (by omega)
      simp [executeWithRetry, retryFrom, he1, hok]
    · obtain ⟨e1, he1⟩ := hfail 1 (by omega) (by omega)
      obtain ⟨e2, he2⟩ := hfail 2 (by omega) (by omega)
      simp [executeWithRetry, retryFrom, he1, he2, hok]

/-- C6, witness: an operation failing every time with "ECONNRESET" is tried
3 times with waits of 1000 ms and 2000 ms before the aggregated throw, and
an operation succeeding immediately is invoked once. -/
theorem retry_backoff_exhaustion_witness :
    executeWithRetry (fun _ => (.error "ECONNRESET" : Except String Nat)) 3 1000 =
      ⟨.error ("Failed after 3 attempts: " ++ "ECONNRESET"), 3, [1000, 2000]⟩ ∧
    (executeWithRetry (fun _ => (.ok 7 : Except String Nat)) 3 1000).result = .ok 7 ∧
    (executeWithRetry (fun _ => (.ok 7 : Except String Nat)) 3 1000).invocations = 1 :=
  ⟨retry_backoff_exhaustion.1 (fun _ => .error "ECONNRESET") (fun _ => "ECONNRESET")
      (fun _ => rfl),
    retry_backoff_exhaustion.2 (fun _ => .ok 7) 7 1 (by omega) (by omega)
      (fun n h1 h2 => absurd (lt_of_le_of_lt h1 h2) (by omega)) rfl⟩

/-- The `HealthMonitor` run metrics (part_004 line 152, part_006 line 149).
Runtimes and the running average are rationals, on which the source's
arithmetic (`(avg * (n-1) + runtime) / n` over JavaScript numbers) is
computed exactly for the integer-second runtimes the system records. -/
structure Metrics where
  totalRuns : Nat
  successfulBookings : Nat
  failedBookings : Nat
  avgRuntime : ℚ
  lastRun : Option Nat

/-- The metrics at process start (part_004 line 152). -/
def initialMetrics : Metrics := ⟨0, 0, 0, 0, none⟩

/-- `HealthMonitor.recordRun(success, runtime)` at time `now` (part_004
lines 197-203, part_006 lines 165-171): bump `totalRuns`, bump the success
or failure counter, set the average to the runtime on the first run and
otherwise to `((avg * (totalRuns - 1)) + runtime) / totalRuns`, and stamp
`lastRun`. -/
def recordRun (m : Metrics) (success : Bool) (runtime : ℚ) (now : Nat) : Metrics :=
  let totalRuns := m.totalRuns + 1
  ⟨totalRuns,
    if success then m.successfulBookings + 1 else m.successfulBookings,
    if success then m.failedBookings else m.failedBookings + 1,
    if totalRuns = 1 then runtime
    else ((m.avgRuntime * ((totalRuns : ℚ) - 1)) + runtime) / (totalRuns : ℚ),
    some now⟩

/-- A sequence of completed attempts applied in order (`lastRun` stamps are
irrelevant to the claim and supplied as 0). -/
def applyRuns (m : Metrics) : List (Bool × ℚ) → Metrics
  | [] => m
  | r :: rs => applyRuns (recordRun m r.1 r.2 0) rs

theorem applyRuns_totalRuns (runs : List (Bool × ℚ)) :
    ∀ m : Metrics, (applyRuns m runs).totalRuns = m.totalRuns + runs.length := by
  induction runs with
  | nil => intro m; simp [applyRuns]
  | cons r rs ih =>
    intro m
    rw [applyRuns, ih]
    simp [recordRun]
    omega

theorem applyRuns_counters (runs : List (Bool × ℚ)) :
    ∀ m : Metrics,
      (applyRuns m runs).successfulBookings + (applyRuns m runs).failedBookings =
        m.successfulBookings + m.failedBookings + runs.length := by
  induction runs with
  | nil => intro m; simp [applyRuns]
  | cons r rs ih =>
    intro m
    rw [applyRuns, ih]
    by_cases h : r.1 = true <;> simp [recordRun, h] <;> omega

theorem applyRuns_avg_mul (runs : List (Bool × ℚ)) :
    ∀ m : Metrics,
      (applyRuns m runs).avgRuntime * ((applyRuns m runs).totalRuns : ℚ) =
        m.avgRuntime * (m.totalRuns : ℚ) + ((runs.map Prod.snd).sum : ℚ) := by
  induction runs with
  | nil => intro m; simp [applyRuns]
  | cons r rs ih =>
    intro m
    rw [applyRuns, ih]
    rcases m with ⟨n, s, f, avg, last⟩
    by_cases h : n = 0
    · subst h
      simp [recordRun]
    · have hn : ¬(n + 1 = 1) := by omega
      have hq : ((n : ℚ) + 1) ≠ 0 := by positivity
      simp only [recordRun, hn, if_false]
      push_cast
      field_simp
      ring

/-- C7. After applying any sequence of `recordRun` calls from a fresh
monitor, `totalRuns` counts the calls, the success and failure counters
partition it, and — once at least one run is recorded — `avgRuntime` is the
arithmetic mean of all recorded runtimes (the fixed point of the source's
running-mean recurrence); in particular runtimes 10, 20, 30 yield averages
10, 15 and 20 after the successive calls. -/
theorem record_run_average (runs : List (Bool × ℚ)) (hne : runs ≠ []) :
    (applyRuns initialMetrics runs).totalRuns = runs.length ∧
    (applyRuns initialMetrics runs).successfulBookings +
        (applyRuns initialMetrics runs).failedBookings = runs.length ∧
    (applyRuns initialMetrics runs).avgRuntime =
      ((runs.map Prod.snd).sum) / (runs.length : ℚ) ∧
    (applyRuns initialMetrics [(true, 10)]).avgRuntime = 10 ∧
    (applyRuns initialMetrics [(true, 10), (true, 20)]).avgRuntime = 15 ∧
    (applyRuns initialMetrics [(true, 10), (true, 20), (false, 30)]).avgRuntime = 20 ∧
    (applyRuns initialMetrics [(true, 10), (true, 20), (false, 30)]).totalRuns = 3 := by
  have htot := applyRuns_totalRuns runs initialMetrics
  have hcnt := applyRuns_counters runs initialMetrics
  have havg := applyRuns_avg_mul runs initialMetrics
  simp [initialMetrics] at htot hcnt havg
  rw [htot] at havg
  have hlen : (runs.length : ℚ) ≠ 0 := by
    have h : runs.length ≠ 0 := fun h => hne (List.length_eq_zero.mp h)
    exact_mod_cast h
  refine ⟨htot, hcnt, ?_,
    by norm_num [applyRuns, recordRun, initialMetrics],
    by norm_num [applyRuns, recordRun, initialMetrics],
    by norm_num [applyRuns, recordRun, initialMetrics],
    by norm_num [applyRuns, recordRun, initialMetrics]⟩
  rw [eq_div_iff hlen]
  exact havg

/-- C7, witness: the three-run sequence with runtimes 10, 20, 30 has three
runs, a success/failure partition of 3, and mean runtime 20. -/
theorem record_run_average_witness :
    (applyRuns initialMetrics [(true, 10), (true, 20), (false, 30)]).totalRuns = 3 ∧
    (applyRuns initialMetrics [(true, 10), (true, 20), (false, 30)]).successfulBookings +
        (applyRuns initialMetrics [(true, 10), (true, 20), (false, 30)]).failedBookings
        = 3 ∧
    (applyRuns initialMetrics [(true, 10), (true, 20), (false, 30)]).avgRuntime =
      (([(true, (10 : ℚ)), (true, 20), (false, 30)].map Prod.snd).sum) / 3 := by
  have h := record_run_average [(true, 10), (true, 20), (false, 30)] (by simp)
  exact ⟨h.1, h.2.1, by simpa using h.2.2.1⟩

/-- The outcome of one poll of the provider's check endpoint
(`SMSManager.getSMS`): an SMS with its code arrived, no code yet, or the
poll itself failed with an error message. -/
inductive Poll where
  | gotCode (c : String)
  | noCode
  | failed (e : String)
deriving DecidableEq, Repr

/-- What one `waitForSMS` call produces: the returned code or thrown error,
the wall-clock milliseconds elapsed when it returned, and the number of
polls made. -/
structure SmsTrace where
  result : Except String String
  elapsed : Nat
  pollsMade : Nat
deriving Repr

/-- The timeout error thrown by `waitForSMS`:
`SMS timeout after ${Math.round((Date.now() - start) / 1000)}s` (the elapsed
times in this model are multiples of 1000 ms, so the rounding is exact
division). -/
def smsTimeoutMsg (elapsed : Nat) : String :=
  "SMS timeout after " ++ toString (elapsed / 1000) ++ "s"

/-- The polling loop of `SMSManager.waitForSMS` (part_004 lines 104-121),
driven by the list of successive poll outcomes the provider would return
(the poll call itself is instantaneous in this model; only the sleeps
advance the clock). While the elapsed time is below the timeout: make the
next poll; a code returns it; no code sleeps 10000 ms; a failed poll throws
the timeout error when at least 5 polls (of any outcome) have been made,
and otherwise sleeps 5000 ms. Once the guard fails — or the outcome list,
which covers every poll the loop could reach, is exhausted — the timeout
error is thrown. -/
def waitLoop (timeout : Nat) : List Poll → Nat → Nat → SmsTrace
  | [], elapsed, attempts => ⟨.error (smsTimeoutMsg elapsed), elapsed, attempts⟩
  | p :: rest, elapsed, attempts =>
    if elapsed < timeout then
      match p with
      | .gotCode c => ⟨.ok c, elapsed, attempts + 1⟩
      | .noCode => waitLoop timeout rest (elapsed + 10000) (attempts + 1)
      | .failed _ =>
        if attempts + 1 ≥ 5 then
          ⟨.error (smsTimeoutMsg elapsed), elapsed, attempts + 1⟩
        else waitLoop timeout rest (elapsed + 5000) (attempts + 1)
    else ⟨.error (smsTimeoutMsg elapsed), elapsed, attempts⟩

/-- The default timeout of `waitForSMS(id, timeout = 120000)` in part_004. -/
def smsDefaultTimeout : Nat := 120000

/-- `SMSManager.waitForSMS` with its default timeout (part_004 line 104). -/
def waitForSMS (polls : List Poll) : SmsTrace :=
  waitLoop smsDefaultTimeout polls 0 0

/-- Modelled from the claim's words, for comparison with `waitForSMS`: the
same polling loop, but giving up early only after 5 *consecutive* poll
failures, tracked in the last argument (a successful poll that merely
carries no code resets that count). -/
def waitForSMSClaimed (timeout : Nat) : List Poll → Nat → Nat → Nat → SmsTrace
  | [], elapsed, attempts, _ => ⟨.error (smsTimeoutMsg elapsed), elapsed, attempts⟩
  | p :: rest, elapsed, attempts, consecFails =>
    if elapsed < timeout then
      match p with
      | .gotCode c => ⟨.ok c, elapsed, attempts + 1⟩
      | .noCode => waitForSMSClaimed timeout rest (elapsed + 10000) (attempts + 1) 0
      | .failed _ =>
        if consecFails + 1 ≥ 5 then
          ⟨.error (smsTimeoutMsg elapsed), elapsed, attempts + 1⟩
        else waitForSMSClaimed timeout rest (elapsed + 5000) (attempts + 1)
          (consecFails + 1)
    else ⟨.error (smsTimeoutMsg elapsed), elapsed, attempts⟩

/-- The poll schedule refuting the claim: four clean "no code yet" checks,
one failed check, then the code arrives. -/
def singleFailureSchedule : List Poll :=
  [.noCode, .noCode, .noCode, .noCode, .failed "HTTP 500",
    .gotCode "123456", .gotCode "123456"]

/-- C8, counterexample. On four clean no-code polls followed by a single
failed poll, the source's `waitForSMS` gives up and throws the timeout
error after 40 s — its early-exit condition `attempts >= 5` counts *all*
polls, not consecutive failures — although only one consecutive failure has
occurred and the very next poll would have delivered the code, which the
claimed five-consecutive-failures rule (modelled by `waitForSMSClaimed`)
goes on to return. -/
theorem sms_giveup_counterexample :
    waitForSMS singleFailureSchedule =
      ⟨.error "SMS timeout after 40s", 40000, 5⟩ ∧
    waitForSMSClaimed smsDefaultTimeout singleFailureSchedule 0 0 0 =
      ⟨.ok "123456", 45000, 6⟩ := by
  constructor
  · rfl
  · rfl

theorem waitLoop_elapsed_bound (timeout : Nat) (polls : List Poll) :
    ∀ elapsed attempts, elapsed < timeout + 10000 →
      (waitLoop timeout polls elapsed attempts).elapsed < timeout + 10000 := by
  induction polls with
  | nil => intro elapsed attempts h; exact h
  | cons p rest ih =>
    intro elapsed attempts h
    by_cases hg : elapsed < timeout
    · cases p with
      | gotCode c => simpa [waitLoop, hg] using h
      | noCode =>
        simp only [waitLoop, if_pos hg]
        exact ih (elapsed + 10000) (attempts + 1) (by omega)
      | failed e =>
        by_cases ha : attempts + 1 ≥ 5
        · simpa [waitLoop, hg, ha] using h
        · simp only [waitLoop, if_pos hg, if_neg ha]
          exact ih (elapsed + 5000) (attempts + 1) (by omega)
    · simpa [waitLoop, hg] using h

/-- C8, amended. `waitForSMS` enforces the default 120000 ms wall-clock
timeout (within the spec's 120000-300000 ms range): the wait always ends
less than one 10000 ms poll interval past the timeout; polling a provider
that never returns a code nor fails makes a check every 10000 ms, 12 checks
in all, and throws the timeout error at 120 s; and the loop gives up early
the moment a poll fails at or after the fifth poll overall — counting every
poll made, not consecutive failures — throwing the timeout error with the
elapsed time reached. -/
theorem sms_timeout_amended :
    smsDefaultTimeout = 120000 ∧
    120000 ≤ smsDefaultTimeout ∧ smsDefaultTimeout ≤ 300000 ∧
    (∀ polls : List Poll,
      (waitForSMS polls).elapsed < smsDefaultTimeout + 10000) ∧
    waitForSMS (List.replicate 12 .noCode) =
      ⟨.error "SMS timeout after 120s", 120000, 12⟩ ∧
    (∀ (rest : List Poll) (e : String),
      waitForSMS ([.noCode, .noCode, .noCode, .noCode, .failed e] ++ rest) =
        ⟨.error "SMS timeout after 40s", 40000, 5⟩) := by
  refine ⟨rfl, by decide, by decide, ?_, by rfl, ?_⟩
  · intro polls
    exact waitLoop_elapsed_bound smsDefaultTimeout polls 0 0 (by decide)
  · intro rest e
    rfl

/-- C8, witness for the amended theorem: the bounded-elapsed clause at the
empty schedule, and the early-give-up clause at a failure message. -/
theorem sms_timeout_amended_witness :
    (waitForSMS []).elapsed < 130000 ∧
    waitForSMS [.noCode, .noCode, .noCode, .noCode, .failed "ECONNREFUSED"] =
      ⟨.error "SMS timeout after 40s", 40000, 5⟩ :=
  ⟨sms_timeout_amended.2.2.2.1 [],
    by simpa using sms_timeout_amended.2.2.2.2.2 [] "ECONNREFUSED"⟩

/-- The sort key of `configs.sort((a, b) => (a.priority || 3) - (b.priority
|| 3))` (part_002 line 313, part_004 line 367): the row's `priority` when
that value is truthy, numerically coerced, and the default 3 otherwise —
so an absent, zero, or empty-string priority all key as 3. -/
def priorityKey (row : Row) : Int :=
  let v := getField row "priority"
  if v.truthy then v.toNumber else 3

/-- The dispatch order of `main`: profiles stably sorted ascending by
`priorityKey` (JavaScript `Array.prototype.sort` is stable). -/
def dispatchOrder (rows : List Row) : List Row :=
  sortByKey priorityKey rows

/-- The four profiles of the spec's priority example: priorities
absent (defaulting to 3), 1, 5, 1, in that original order. -/
def profileA : Row := [("name", JsVal.str "A")]
def profileB : Row := [("name", JsVal.str "B"), ("priority", JsVal.num 1)]
def profileC : Row := [("name", JsVal.str "C"), ("priority", JsVal.num 5)]
def profileD : Row := [("name", JsVal.str "D"), ("priority", JsVal.num 1)]

/-- C9. The dispatch order is non-decreasing in the effective priority, and
profiles of equal effective priority keep their original relative order
(stability, stated per key value); on the example list with priorities
[absent→3, 1, 5, 1] the two priority-1 profiles come first in their
original order, then the defaulted-to-3 profile, then the priority-5 one. -/
theorem priority_ordering :
    (∀ rows : List Row,
      (dispatchOrder rows).Pairwise (fun a b => priorityKey a ≤ priorityKey b)) ∧
    (∀ (rows : List Row) (p : Int),
      (dispatchOrder rows).filter (fun r => priorityKey r == p) =
        rows.filter (fun r => priorityKey r == p)) ∧
    priorityKey profileA = 3 ∧
    dispatchOrder [profileA, profileB, profileC, profileD] =
      [profileB, profileD, profileA, profileC] := by
  refine ⟨?_, ?_, by decide, by decide⟩
  · intro rows
    exact sortByKey_sorted priorityKey rows
  · intro rows p
    exact sortByKey_stable priorityKey rows p

/-- C10. A present-but-falsy `priority` — the number 0 or the empty string —
keys as the default 3 rather than as the highest priority, so in every
dispatch order no priority-0 (or empty-string-priority) profile ever
precedes a priority-1 profile; concretely, sorting a priority-0 profile
with a priority-1 profile dispatches the priority-1 profile first. -/
theorem falsy_priority_default :
    (∀ row : Row, getField row "priority" = JsVal.num 0 → priorityKey row = 3) ∧
    (∀ row : Row, getField row "priority" = JsVal.str "" → priorityKey row = 3) ∧
    (∀ rows : List Row,
      (dispatchOrder rows).Pairwise (fun a b =>
        (getField a "priority" = JsVal.num 0 ∨ getField a "priority" = JsVal.str "") →
          getField b "priority" ≠ JsVal.num 1)) ∧
    dispatchOrder [[("priority", JsVal.num 0)], [("priority", JsVal.num 1)]] =
      [[("priority", JsVal.num 1)], [("priority", JsVal.num 0)]] := by
  have key0 : ∀ row : Row, getField row "priority" = JsVal.num 0 →
      priorityKey row = 3 := by
    intro row h
    simp [priorityKey, h, JsVal.truthy]
  have keyE : ∀ row : Row, getField row "priority" = JsVal.str "" →
      priorityKey row = 3 := by
    intro row h
    simp [priorityKey, h, JsVal.truthy]
  have key1 : ∀ row : Row, getField row "priority" = JsVal.num 1 →
      priorityKey row = 1 := by
    intro row h
    simp [priorityKey, h, JsVal.truthy, JsVal.toNumber]
  refine ⟨key0, keyE, ?_, by decide⟩
  intro rows
  refine ((sortByKey_sorted priorityKey rows).imp ?_)
  intro a b hle ha hb
  rcases ha with h0 | hE
  · rw [key0 a h0, key1 b hb] at hle
    omega
  · rw [keyE a hE, key1 b hb] at hle
    omega

/-- C10, witness: concrete rows with priority 0 and priority "" both key as
the default 3. -/
theorem falsy_priority_default_witness :
    priorityKey [("priority", JsVal.num 0)] = 3 ∧
    priorityKey [("priority", JsVal.str "")] = 3 :=
  ⟨falsy_priority_default.1 [("priority", JsVal.num 0)] (by decide),
    falsy_priority_default.2.1 [("priority", JsVal.str "")] (by decide)⟩
